import Mathlib

/-!
# Verification of the paymail capability-registry and router-composition core

Shallow embedding of `src/index.js` of the `express-payauth` repository: the
base-URL validator (`validateBaseUrl`), URL joining (`joinUrls`, wrapping the
`url-join` library), the capability map built by `buildPaymailRouter`, and the
routing pipeline it assembles.

Strings are modelled as lists of characters (`JStr`) so that prefix/suffix/infix
reasoning can use the standard list lemmas.
-/

set_option autoImplicit false

/-- JavaScript strings are modelled as lists of characters. -/
abbrev JStr := List Char

/-- Convert a Lean string literal into the model's string type. -/
def str (s : String) : JStr := s.data

/-- Decidable equality on `Except`, so concrete construction outcomes can be
checked by evaluation. -/
instance {e a : Type} [DecidableEq e] [DecidableEq a] : DecidableEq (Except e a) := fun x y =>
  match x, y with
  | Except.error v, Except.error v2 =>
    if h : v = v2 then isTrue (by rw [h]) else isFalse (fun hc => h (by injection hc))
  | Except.ok v, Except.ok v2 =>
    if h : v = v2 then isTrue (by rw [h]) else isFalse (fun hc => h (by injection hc))
  | Except.error _, Except.ok _ => isFalse (fun hc => Except.noConfusion hc)
  | Except.ok _, Except.error _ => isFalse (fun hc => Except.noConfusion hc)

/-! ## URL parsing (model of the WHATWG `URL` constructor from Node's `url` module)

`new URL(input)` is an external collaborator (Node standard library).  The model
below covers absolute URLs of the shape `scheme://host[:port][/path...]`, the
only shape the spec and the repository exercise; inputs of any other shape are
treated as parse failures.  (Userinfo, query/fragment splitting, IPv6 hosts,
case normalization and default-port elision are outside the model.)  As in the
WHATWG API, `hostname` excludes the port. -/

/-- Characters allowed in a URL scheme after the leading letter. -/
def schemeChar (c : Char) : Bool := c.isAlphanum || c = '+' || c = '-' || c = '.'

/-- The result of a successful URL parse: the fields of a WHATWG `URL` object
used by the source (`protocol` keeps the trailing colon, as in `"https:"`). -/
structure ParsedUrl where
  protocol : JStr
  hostname : JStr
  port : JStr
  pathname : JStr
deriving DecidableEq, Repr

/-- The `href` serialization of a parsed URL (e.g. `"https://example.com/"`). -/
def ParsedUrl.href (u : ParsedUrl) : JStr :=
  u.protocol ++ ('/' :: '/' :: u.hostname)
    ++ (if u.port = [] then [] else ':' :: u.port) ++ u.pathname

/-- Parse an absolute URL of the shape `scheme://host[:port][/path...]`;
`none` models the `URL` constructor throwing. An empty path serializes as `/`. -/
def parseURL (s : JStr) : Option ParsedUrl :=
  match s with
  | [] => none
  | c :: _ =>
    if c.isAlpha then
      let scheme := s.takeWhile schemeChar
      let rest := s.drop scheme.length
      match rest with
      | ':' :: '/' :: '/' :: rest2 =>
        let authority := rest2.takeWhile (fun c => !(c = '/'))
        let path := rest2.drop authority.length
        let hostname := authority.takeWhile (fun c => !(c = ':'))
        let portPart := authority.drop hostname.length
        let port := match portPart with
          | ':' :: p => p
          | _ => []
        if hostname = [] then none
        else if !(port.all Char.isDigit) then none
        else some { protocol := scheme ++ [':'], hostname := hostname,
                    port := port,
                    pathname := if path = [] then ['/'] else path }
      | _ => none
    else none

/-! ## The insecure-development-host check

Source, line 33: `/^locahost:?\d*$/.test(url.hostname)` — note the misspelled
hostname literal (`locahost`, not `localhost`). -/

/-- Decide whether a string matches the literal regular expression
`/^locahost:?\d*$/` from `validateBaseUrl`. -/
def matchLocahost (s : JStr) : Bool :=
  match s with
  | 'l' :: 'o' :: 'c' :: 'a' :: 'h' :: 'o' :: 's' :: 't' :: rest =>
    (match rest with
     | ':' :: ds => ds.all Char.isDigit
     | ds => ds.all Char.isDigit)
  | _ => false

/-! ## validateBaseUrl -/

/-- The construction-time error thrown by `validateBaseUrl`
(`throw new Error(\x60Invalid base url: $\x7burl\x7d\x60, err)`): the spec's
`ConfigurationError`, carrying the offending input in its message and the
underlying parse failure passed as the second constructor argument. -/
structure ConfigurationError where
  message : JStr
  cause : Option JStr
deriving DecidableEq, Repr

/-- The non-fatal diagnostics (`console.warn`) this core can emit. -/
inductive Warning where
  /-- `'Paymail should always use ssl on production'` (line 34). -/
  | insecureSsl
  /-- `'This feature is in alpha state. ...'` (line 102, public-profile). -/
  | publicProfileAlpha
deriving DecidableEq, Repr

/-- `validateBaseUrl` (lines 30-40): parse the base URL, failing with a
`ConfigurationError`; on success emit the insecure-development warning when the
scheme is not `https:` and the hostname matches `/^locahost:?\d*$/`.  The
warning is returned alongside the parsed URL to model `console.warn`. -/
def validateBaseUrl (url : JStr) : Except ConfigurationError (ParsedUrl × List Warning) :=
  match parseURL url with
  | some u =>
    if u.protocol ≠ str "https:" ∧ matchLocahost u.hostname = true then
      Except.ok (u, [Warning.insecureSsl])
    else
      Except.ok (u, [])
  | none =>
    Except.error { message := str "Invalid base url: " ++ url,
                   cause := some (str "Invalid URL") }

/-! ## joinUrls (model of the `url-join` library)

Modelled from the spec: the `url-join` package wrapped by `joinUrls` (line 26)
is an external dependency not under `src/`; the spec requires that "Joining
normalizes redundant path separators but must not percent-encode the
placeholder braces."  The model below follows the library's normalization:
the first component keeps exactly two slashes after its `scheme:` part, every
later component is stripped of leading slashes, every component but the last is
stripped of trailing slashes, the last component's trailing slash run collapses
to a single slash, components that are or become empty are skipped, and the
surviving components are joined with single slashes.  No percent-encoding is
performed.  (Query/fragment post-processing is outside the model: no input in
this development contains a query or fragment character.) -/

/-- Drop every leading `/`. -/
def dropLeadingSlashes (s : JStr) : JStr := s.dropWhile (fun c => c = '/')

/-- Drop every trailing `/`. -/
def dropTrailingSlashes (s : JStr) : JStr :=
  (s.reverse.dropWhile (fun c => c = '/')).reverse

/-- Collapse a trailing run of `/` to a single `/` (the library's treatment of
the last component). -/
def collapseTrailingSlashes (s : JStr) : JStr :=
  if s.getLast? = some '/' then dropTrailingSlashes s ++ ['/'] else s

/-- Rewrite a leading `scheme:` followed by any number of slashes to
`scheme://` (the library's protocol normalization of the first component). -/
def fixProtocol (s : JStr) : JStr :=
  let pre := s.takeWhile (fun c => !(c = '/') && !(c = ':'))
  let rest := s.drop pre.length
  match rest with
  | ':' :: tail =>
    if pre = [] then s else pre ++ ':' :: '/' :: '/' :: dropLeadingSlashes tail
  | _ => s

/-- Normalize one component: strip leading slashes unless it is the first,
strip trailing slashes unless it is the last, collapse the last component's
trailing slashes to one. -/
def normComp (stripLead : Bool) (isLast : Bool) (c : JStr) : JStr :=
  let c := if stripLead then dropLeadingSlashes c else c
  if isLast then collapseTrailingSlashes c else dropTrailingSlashes c

/-- Normalize the components in order, skipping those that are or become
empty.  The boolean marks whether the head is the overall first component. -/
def joinComps : Bool → List JStr → List JStr
  | _, [] => []
  | isFirst, [c] =>
    if c = [] then []
    else
      let c2 := normComp (!isFirst) true c
      if c2 = [] then [] else [c2]
  | isFirst, c :: c2 :: rest =>
    if c = [] then joinComps false (c2 :: rest)
    else
      let cn := normComp (!isFirst) false c
      if cn = [] then joinComps false (c2 :: rest)
      else cn :: joinComps false (c2 :: rest)

/-- Join normalized components with single slashes. -/
def joinSlash : List JStr → JStr
  | [] => []
  | [c] => c
  | c :: c2 :: rest => c ++ '/' :: joinSlash (c2 :: rest)

/-- The `url-join` entry point: protocol-normalize the first component, then
normalize and join all components. -/
def urljoin : List JStr → JStr
  | [] => []
  | p :: rest => joinSlash (joinComps true (fixProtocol p :: rest))

/-- `joinUrls` (lines 26-28): a direct wrapper around `url-join`. -/
def joinUrls (parts : List JStr) : JStr := urljoin parts

/-! ## The capability map

A JavaScript object keyed by capability code, modelled as an insertion-ordered
association list.  Property assignment (`obj[k] = v`) updates the value in
place when the key is present and appends otherwise. -/

/-- A capability value: a URL template string, or the sender-validation
boolean. -/
inductive CapValue where
  | url (template : JStr)
  | flag (b : Bool)
deriving DecidableEq, Repr

/-- The capability map: an insertion-ordered association list, as a JS object. -/
abbrev CapMap := List (String × CapValue)

/-- JS object property assignment: overwrite in place if the key is present,
append otherwise. -/
def setKey (m : CapMap) (k : String) (v : CapValue) : CapMap :=
  if m.any (fun kv => kv.1 = k) then
    m.map (fun kv => if kv.1 = k then (k, v) else kv)
  else m ++ [(k, v)]

/-- JS object property read: the value at a key, if present. -/
def lookupKey (m : CapMap) (k : String) : Option CapValue :=
  match m with
  | [] => none
  | kv :: rest => if kv.1 = k then some kv.2 else lookupKey rest k

/-! ## Capability codes

Modelled from the spec: the constants module (`./constants`,
`CapabilityCodes`) is not under `src/`; the spec says the codes form "a fixed
enumerated set of string identifiers (one per sub-protocol)", each sub-protocol
owning its own reserved code.  The codes are represented here by their enum
member names, as distinct identifiers.  (`pki` and `paymentDestination` are
literal property names in `src/index.js` itself.) -/

def CapabilityCodes.requestSenderValidation : String := "requestSenderValidation"

def CapabilityCodes.verifyPublicKeyOwner : String := "verifyPublicKeyOwner"

def CapabilityCodes.publicProfile : String := "publicProfile"

def CapabilityCodes.receiveTransaction : String := "receiveTransaction"

def CapabilityCodes.p2pPaymentDestination : String := "p2pPaymentDestination"

def CapabilityCodes.p2pPaymentDestinationWithTokensSupport : String := "p2pPaymentDestinationWithTokensSupport"

def CapabilityCodes.assetInformation : String := "assetInformation"

/-! ## Configuration -/

/-- An opaque caller-supplied callback; only its presence matters to this
core. -/
abbrev Callback := Unit

/-- The caller-supplied configuration read by `buildPaymailRouter`.  Each
sub-protocol's optional callback doubles as its enablement signal; `basePath`
falls back to `/` when absent or empty (JS falsiness); `requestSenderValidation`
and `useCors` model the truthiness of the corresponding fields; `capabilities`
is the optional caller-supplied capability object read at line 82. -/
structure Config where
  getIdentityKey : Option Callback := none
  getPaymentDestination : Option Callback := none
  verifyPublicKeyOwner : Option Callback := none
  getPublicProfile : Option Callback := none
  receiveTransaction : Option Callback := none
  getP2pPaymentDestination : Option Callback := none
  getP2pPaymentDestinationTokens : Option Callback := none
  getAssetInformation : Option Callback := none
  basePath : Option JStr := none
  requestSenderValidation : Bool := false
  useCors : Bool := false
  corsConfig : Option Unit := none
  bodyParserConfig : Option Unit := none
  capabilities : Option CapMap := none
  errorHandler : Callback := ()
deriving DecidableEq, Repr

/-- `getBaseRoute` (lines 22-24): `config.basePath || '/'` (an absent or empty
base path is falsy and falls back to `/`). -/
def getBaseRoute (config : Config) : JStr :=
  match config.basePath with
  | some p => if p = [] then ['/'] else p
  | none => ['/']

/-! ## Sub-protocols -/

/-- The eight optional sub-protocols, in the order their registrars run in
`buildPaymailRouter` (lines 86-126). -/
inductive SubProtocol where
  | identity
  | paymentDestination
  | verifyPubkey
  | publicProfile
  | receiveTransaction
  | p2pPaymentDestination
  | p2pPaymentDestinationTokens
  | assetInformation
deriving DecidableEq, Repr

/-- The registrar sequence of `buildPaymailRouter`, in source order. -/
def subProtocolOrder : List SubProtocol :=
  [SubProtocol.identity, SubProtocol.paymentDestination, SubProtocol.verifyPubkey,
   SubProtocol.publicProfile, SubProtocol.receiveTransaction,
   SubProtocol.p2pPaymentDestination, SubProtocol.p2pPaymentDestinationTokens,
   SubProtocol.assetInformation]

/-- Modelled from the spec: the per-sub-protocol registrar modules
(`./buildIndentityRouter` etc.) are not under `src/`.  The spec's registrar
contract: each "decides, from `config`, whether it is enabled (presence of the
required callback(s) in configuration is the enablement signal)" and, if
enabled, invokes the mounting callback exactly once.  The three callback names
documented in `src/index.js` (`getIdentityKey`, `getPaymentDestination`,
`verifyPublicKeyOwner`) are kept; the remaining five are represented by one
optional callback field per sub-protocol. -/
def subProtocolEnabled (config : Config) : SubProtocol → Bool
  | SubProtocol.identity => config.getIdentityKey.isSome
  | SubProtocol.paymentDestination => config.getPaymentDestination.isSome
  | SubProtocol.verifyPubkey => config.verifyPublicKeyOwner.isSome
  | SubProtocol.publicProfile => config.getPublicProfile.isSome
  | SubProtocol.receiveTransaction => config.receiveTransaction.isSome
  | SubProtocol.p2pPaymentDestination => config.getP2pPaymentDestination.isSome
  | SubProtocol.p2pPaymentDestinationTokens => config.getP2pPaymentDestinationTokens.isSome
  | SubProtocol.assetInformation => config.getAssetInformation.isSome

/-- The capability code each sub-protocol registers under (lines 88-125). -/
def capabilityCode : SubProtocol → String
  | SubProtocol.identity => "pki"
  | SubProtocol.paymentDestination => "paymentDestination"
  | SubProtocol.verifyPubkey => CapabilityCodes.verifyPublicKeyOwner
  | SubProtocol.publicProfile => CapabilityCodes.publicProfile
  | SubProtocol.receiveTransaction => CapabilityCodes.receiveTransaction
  | SubProtocol.p2pPaymentDestination => CapabilityCodes.p2pPaymentDestination
  | SubProtocol.p2pPaymentDestinationTokens => CapabilityCodes.p2pPaymentDestinationWithTokensSupport
  | SubProtocol.assetInformation => CapabilityCodes.assetInformation

/-- The fixed per-capability relative path template of each sub-protocol
(lines 88-125), with its literal placeholder tokens. -/
def capabilityPath : SubProtocol → JStr
  | SubProtocol.identity => str "/id/\x7balias\x7d@\x7bdomain.tld\x7d"
  | SubProtocol.paymentDestination => str "/address/\x7balias\x7d@\x7bdomain.tld\x7d"
  | SubProtocol.verifyPubkey => str "/verifypubkey/\x7balias\x7d@\x7bdomain.tld\x7d/\x7bpubkey\x7d"
  | SubProtocol.publicProfile => str "/public-profile/\x7balias\x7d@\x7bdomain.tld\x7d"
  | SubProtocol.receiveTransaction => str "/receive-transaction/\x7balias\x7d@\x7bdomain.tld\x7d"
  | SubProtocol.p2pPaymentDestination => str "/p2p-payment-destination/\x7balias\x7d@\x7bdomain.tld\x7d"
  | SubProtocol.p2pPaymentDestinationTokens => str "/p2p-payment-destination-tokens-support/\x7balias\x7d@\x7bdomain.tld\x7d"
  | SubProtocol.assetInformation => str "/asset/\x7balias\x7d@\x7bdomain.tld\x7d"

/-- The three fixed relative path templates always registered (lines 128-130),
keyed by their literal property names. -/
def fixedEntries : List (String × JStr) :=
  [("userDomain", str "/oauth/\x7buser\x7d@\x7bdomain.tld\x7d"),
   ("userDomainResponse", str "/oauth/response/\x7bapp\x7d@\x7bdomain.tld\x7d"),
   ("userInfo", str "/payauth/userinfo/\x7buser\x7d@\x7bdomain.tld\x7d")]

/-! ## The routing pipeline -/

/-- A stage of the built pipeline, in the order `baseRouter` receives it:
`bodyParser.json` (line 74), optionally `cors` (line 79), the well-known
discovery endpoint (line 132), the API router mounted under the base route
(line 140), and the error handler (line 142). -/
inductive Stage where
  | bodyParser
  | cors
  | wellKnown
  | apiMount (basePath : JStr) (handlers : List SubProtocol)
  | errorHandler
deriving DecidableEq, Repr

/-- The built paymail router: its ordered stages, the sub-protocol handlers
mounted into the API router, and the capability map the discovery endpoint
closes over. -/
structure PaymailRouter where
  stages : List Stage
  apiHandlers : List SubProtocol
  capabilities : CapMap
deriving DecidableEq, Repr

/-- The outcome of a successful construction: the router, the `console.warn`
diagnostics emitted on the way, and the caller's configuration as it stands
after construction (when `config.capabilities` is supplied, the source's
`capabilities` object aliases it, so every capability write lands in the
caller's object). -/
structure BuildResult where
  router : PaymailRouter
  warnings : List Warning
  configAfter : Config
deriving DecidableEq, Repr

/-- One registrar step of `buildPaymailRouter` (lines 86-126): if the
sub-protocol is enabled, mount its handler into the API router and register
its capability URL template; otherwise contribute nothing. -/
def buildStep (href : JStr) (config : Config) (acc : CapMap × List SubProtocol)
    (sp : SubProtocol) : CapMap × List SubProtocol :=
  if subProtocolEnabled config sp then
    (setKey acc.1 (capabilityCode sp)
       (CapValue.url (joinUrls [href, getBaseRoute config, capabilityPath sp])),
     acc.2 ++ [sp])
  else acc

/-- `buildPaymailRouter` (lines 72-145): validate the base URL (a failure
throws and exposes nothing), seed the capability map from
`config.capabilities || \x7b\x7d`, set the sender-validation boolean, run the
eight registrars in order, add the three fixed entries, and assemble the
pipeline: body parser, optional CORS stage, well-known discovery endpoint, API
router under the base route, error handler last. -/
def buildPaymailRouter (baseUrl : JStr) (config : Config) :
    Except ConfigurationError BuildResult :=
  match validateBaseUrl baseUrl with
  | Except.error e => Except.error e
  | Except.ok (u, warns) =>
    let baseRoute := getBaseRoute config
    let caps0 := config.capabilities.getD []
    let caps1 := setKey caps0 CapabilityCodes.requestSenderValidation
      (CapValue.flag config.requestSenderValidation)
    let stepped := subProtocolOrder.foldl (buildStep u.href config) (caps1, [])
    let capsFinal := fixedEntries.foldl
      (fun m e => setKey m e.1 (CapValue.url (joinUrls [u.href, baseRoute, e.2])))
      stepped.1
    let stages := [Stage.bodyParser]
      ++ (if config.useCors then [Stage.cors] else [])
      ++ [Stage.wellKnown, Stage.apiMount baseRoute stepped.2, Stage.errorHandler]
    Except.ok
      { router := { stages := stages, apiHandlers := stepped.2,
                    capabilities := capsFinal },
        warnings := warns
          ++ (if subProtocolEnabled config SubProtocol.publicProfile then
                [Warning.publicProfileAlpha] else []),
        configAfter :=
          { config with capabilities := config.capabilities.map (fun _ => capsFinal) } }

/-! ## The discovery-document endpoint -/

/-- An incoming request, as far as the discovery endpoint could observe it. -/
structure Request where
  body : JStr
deriving DecidableEq, Repr

/-- The discovery document: the literal protocol-version field and the
capability map. -/
structure DiscoveryDoc where
  bsvalias : String
  capabilities : CapMap
deriving DecidableEq, Repr

/-- An HTTP response of the discovery endpoint: content type and document. -/
structure WellKnownResponse where
  contentType : String
  body : DiscoveryDoc
deriving DecidableEq, Repr

/-- The `GET /.well-known/bsvalias` handler (lines 132-138): set the content
type, send the literal version field and the capability map the router closes
over; the router state is returned unchanged. -/
def handleWellKnown (r : PaymailRouter) (_req : Request) :
    WellKnownResponse × PaymailRouter :=
  ({ contentType := "application/json",
     body := { bsvalias := "1.0", capabilities := r.capabilities } }, r)

/-! ## Lemmas about slash trimming -/

theorem head_dropLeadingSlashes (s : JStr) (c : Char) (t : JStr)
    (h : dropLeadingSlashes s = c :: t) : ¬ c = '/' := by
  induction s with
  | nil => simp [dropLeadingSlashes] at h
  | cons a l ih =>
    by_cases ha : a = '/'
    · apply ih
      simpa [dropLeadingSlashes, List.dropWhile_cons, ha] using h
    · simp [dropLeadingSlashes, List.dropWhile_cons, ha] at h
      intro hc
      exact ha (h.1.trans hc)

theorem dropTrailingSlashes_eq_nil_iff (s : JStr) :
    dropTrailingSlashes s = [] ↔ ∀ c ∈ s, c = '/' := by
  unfold dropTrailingSlashes
  rw [List.reverse_eq_nil_iff, List.dropWhile_eq_nil_iff]
  constructor
  · intro h c hc
    simpa using h c (by simpa using hc)
  · intro h c hc
    simpa using h c (by simpa using hc)

theorem dropTrailingSlashes_of_getLast?_ne (s : JStr) (h : ¬ s.getLast? = some '/') :
    dropTrailingSlashes s = s := by
  unfold dropTrailingSlashes
  cases hr : s.reverse with
  | nil =>
    have : s = [] := by simpa using congrArg List.reverse hr
    simp [this]
  | cons a t =>
    have ha : ¬ a = '/' := by
      intro hc
      apply h
      rw [← List.head?_reverse, hr, hc]
      rfl
    rw [List.dropWhile_cons, if_neg (by simpa using ha), ← hr, List.reverse_reverse]

theorem dropTrailingSlashes_ne_nil (s : JStr) (c : Char) (t : JStr)
    (hs : s = c :: t) (hc : ¬ c = '/') : ¬ dropTrailingSlashes s = [] := by
  intro h
  rw [dropTrailingSlashes_eq_nil_iff] at h
  exact hc (h c (by simp [hs]))

theorem collapseTrailingSlashes_ne_nil (s : JStr) (hs : ¬ s = []) :
    ¬ collapseTrailingSlashes s = [] := by
  unfold collapseTrailingSlashes
  split
  · simp
  · exact hs

/-! ## Lemmas about joinSlash -/

theorem joinSlash_cons_cons (c c2 : JStr) (rest : List JStr) :
    joinSlash (c :: c2 :: rest) = c ++ '/' :: joinSlash (c2 :: rest) := rfl

theorem joinSlash_append_singleton (F : List JStr) (x : JStr) :
    joinSlash (F ++ [x]) = if F = [] then x else joinSlash F ++ '/' :: x := by
  induction F with
  | nil => rfl
  | cons f F' ih =>
    cases F' with
    | nil => rfl
    | cons f2 F'' =>
      rw [List.cons_append, List.cons_append, joinSlash_cons_cons, ← List.cons_append, ih]
      simp [joinSlash_cons_cons, List.append_assoc]

theorem joinSlash_append_pair (F : List JStr) (x y : JStr) :
    joinSlash (F ++ [x, y]) =
      (if F = [] then x else joinSlash F ++ '/' :: x) ++ '/' :: y := by
  have h : F ++ [x, y] = (F ++ [x]) ++ [y] := by simp
  rw [h, joinSlash_append_singleton, joinSlash_append_singleton]
  simp

/-! ## Lemmas about joinComps and urljoin -/

theorem joinComps_pair (isFirst : Bool) (a b : JStr) :
    joinComps isFirst [a, b] =
      (if a = [] ∨ normComp (!isFirst) false a = [] then []
       else [normComp (!isFirst) false a]) ++ joinComps false [b] := by
  by_cases ha : a = [] <;> by_cases hc : normComp (!isFirst) false a = [] <;>
    simp [joinComps, ha, hc]

theorem joinComps_triple (isFirst : Bool) (a b p : JStr) :
    joinComps isFirst [a, b, p] =
      (if a = [] ∨ normComp (!isFirst) false a = [] then []
       else [normComp (!isFirst) false a]) ++ joinComps false [b, p] := by
  by_cases ha : a = [] <;> by_cases hc : normComp (!isFirst) false a = [] <;>
    simp [joinComps, ha, hc]

theorem joinComps_single_of_ne (p : JStr) (hp : ¬ dropLeadingSlashes p = []) :
    joinComps false [p] = [collapseTrailingSlashes (dropLeadingSlashes p)] := by
  have hpne : ¬ p = [] := by
    intro h
    exact hp (by simp [h, dropLeadingSlashes])
  have h2 : ¬ collapseTrailingSlashes (dropLeadingSlashes p) = [] :=
    collapseTrailingSlashes_ne_nil _ hp
  simp [joinComps, hpne, normComp, h2]

/-- The normalized shape of the middle-plus-last component pair: either the
middle component vanishes, or it survives in both joins, possibly with its
trailing slash run collapsed when it is the last component. -/
theorem joinComps_pair_shape (b p : JStr) (hp : ¬ dropLeadingSlashes p = []) :
    (joinComps false [b] = [] ∧
      joinComps false [b, p] = [collapseTrailingSlashes (dropLeadingSlashes p)]) ∨
    (∃ bt : JStr,
      (joinComps false [b] = [bt] ∨ joinComps false [b] = [bt ++ ['/']]) ∧
      joinComps false [b, p] = [bt, collapseTrailingSlashes (dropLeadingSlashes p)]) := by
  by_cases hb : b = []
  · left
    constructor
    · simp [joinComps, hb]
    · rw [show joinComps false [b, p] = joinComps false [p] by simp [joinComps, hb]]
      exact joinComps_single_of_ne p hp
  · by_cases hb1 : dropLeadingSlashes b = []
    · left
      have hcol : collapseTrailingSlashes (dropLeadingSlashes b) = [] := by
        rw [hb1]; rfl
      have hdt : dropTrailingSlashes (dropLeadingSlashes b) = [] := by
        rw [hb1]; rfl
      constructor
      · simp [joinComps, hb, normComp, hcol]
      · rw [show joinComps false [b, p] = joinComps false [p] by
          simp [joinComps, hb, normComp, hdt]]
        exact joinComps_single_of_ne p hp
    · right
      obtain ⟨c, t, hct⟩ := List.exists_cons_of_ne_nil hb1
      have hcne : ¬ c = '/' := head_dropLeadingSlashes b c t hct
      have hdtne : ¬ dropTrailingSlashes (dropLeadingSlashes b) = [] :=
        dropTrailingSlashes_ne_nil _ c t hct hcne
      by_cases hl : (dropLeadingSlashes b).getLast? = some '/'
      · refine ⟨dropTrailingSlashes (dropLeadingSlashes b), Or.inr ?_, ?_⟩
        · have hcol : collapseTrailingSlashes (dropLeadingSlashes b)
              = dropTrailingSlashes (dropLeadingSlashes b) ++ ['/'] := by
            unfold collapseTrailingSlashes
            rw [if_pos hl]
          simp [joinComps, hb, normComp, hcol]
        · rw [show joinComps false [b, p]
              = dropTrailingSlashes (dropLeadingSlashes b) :: joinComps false [p] by
            simp [joinComps, hb, normComp, hdtne]]
          rw [joinComps_single_of_ne p hp]
      · have hdt : dropTrailingSlashes (dropLeadingSlashes b) = dropLeadingSlashes b :=
          dropTrailingSlashes_of_getLast?_ne _ hl
        have hcol : collapseTrailingSlashes (dropLeadingSlashes b) = dropLeadingSlashes b := by
          unfold collapseTrailingSlashes
          rw [if_neg hl]
        refine ⟨dropLeadingSlashes b, Or.inl ?_, ?_⟩
        · simp [joinComps, hb, normComp, hcol, hb1]
        · rw [show joinComps false [b, p] = dropLeadingSlashes b :: joinComps false [p] by
            simp [joinComps, hb, normComp, hdt, hb1]]
          rw [joinComps_single_of_ne p hp]

/-- Auxiliary: joining an arbitrary front with the middle-and-last components,
the two-component join is a prefix of the three-component join. -/
theorem joinSlash_prefix_front (F : List JStr) (b p : JStr)
    (hp : ¬ dropLeadingSlashes p = []) :
    joinSlash (F ++ joinComps false [b]) <+: joinSlash (F ++ joinComps false [b, p]) := by
  rcases joinComps_pair_shape b p hp with ⟨h2, h3⟩ | ⟨bt, h2, h3⟩
  · rw [h2, h3, List.append_nil, joinSlash_append_singleton]
    by_cases hF : F = []
    · rw [if_pos hF, hF]
      exact List.nil_prefix
    · rw [if_neg hF]
      exact ⟨_, rfl⟩
  · rw [h3, joinSlash_append_pair]
    rcases h2 with h2 | h2
    · rw [h2, joinSlash_append_singleton]
      exact ⟨_, rfl⟩
    · rw [h2, joinSlash_append_singleton]
      by_cases hF : F = []
      · rw [if_pos hF, if_pos hF]
        exact ⟨collapseTrailingSlashes (dropLeadingSlashes p), by simp⟩
      · rw [if_neg hF, if_neg hF]
        exact ⟨collapseTrailingSlashes (dropLeadingSlashes p), by simp⟩

/-- Auxiliary: the normalized last component is a suffix of the join, whatever
the front components are. -/
theorem joinSlash_suffix_front (F : List JStr) (b p : JStr)
    (hp : ¬ dropLeadingSlashes p = []) :
    collapseTrailingSlashes (dropLeadingSlashes p) <:+
      joinSlash (F ++ joinComps false [b, p]) := by
  rcases joinComps_pair_shape b p hp with ⟨-, h3⟩ | ⟨bt, -, h3⟩
  · rw [h3, joinSlash_append_singleton]
    by_cases hF : F = []
    · rw [if_pos hF]
    · rw [if_neg hF]
      exact ⟨joinSlash F ++ ['/'], by simp⟩
  · rw [h3, joinSlash_append_pair]
    by_cases hF : F = []
    · rw [if_pos hF]
      exact ⟨bt ++ ['/'], by simp⟩
    · rw [if_neg hF]
      exact ⟨(joinSlash F ++ '/' :: bt) ++ ['/'], by simp⟩

/-- Joining two components yields a prefix of joining the same two components
followed by a third whose content is not all slashes: the library only ever
extends the joined URL to the right. -/
theorem urljoin_prefix (a b p : JStr) (hp : ¬ dropLeadingSlashes p = []) :
    urljoin [a, b] <+: urljoin [a, b, p] := by
  have e2 : urljoin [a, b] = joinSlash (joinComps true [fixProtocol a, b]) := rfl
  have e3 : urljoin [a, b, p] = joinSlash (joinComps true [fixProtocol a, b, p]) := rfl
  rw [e2, e3, joinComps_pair, joinComps_triple]
  exact joinSlash_prefix_front _ b p hp

/-- The normalized last component is a suffix of the joined URL. -/
theorem urljoin_last_suffix (a b p : JStr) (hp : ¬ dropLeadingSlashes p = []) :
    collapseTrailingSlashes (dropLeadingSlashes p) <:+ urljoin [a, b, p] := by
  have e3 : urljoin [a, b, p] = joinSlash (joinComps true [fixProtocol a, b, p]) := rfl
  rw [e3, joinComps_triple]
  exact joinSlash_suffix_front _ b p hp

/-! ## Lemmas about the capability map -/

theorem lookupKey_setKey_self (m : CapMap) (k : String) (v : CapValue) :
    lookupKey (setKey m k v) k = some v := by
  unfold setKey
  by_cases hm : m.any (fun kv => kv.1 = k)
  · rw [if_pos hm]
    induction m with
    | nil => simp at hm
    | cons kv rest ih =>
      by_cases hk : kv.1 = k
      · simp [lookupKey, hk]
      · have hrest : rest.any (fun kv => kv.1 = k) := by
          simpa [List.any_cons, hk] using hm
        simpa [lookupKey, hk] using ih hrest
  · rw [if_neg hm]
    induction m with
    | nil => simp [lookupKey]
    | cons kv rest ih =>
      have hk : ¬ kv.1 = k := by
        intro h
        exact hm (by simp [List.any_cons, h])
      have hrest : ¬ rest.any (fun kv => kv.1 = k) := by
        intro h
        exact hm (by simp [List.any_cons, h])
      simpa [lookupKey, hk] using ih hrest

theorem lookupKey_setKey_ne (m : CapMap) (k k' : String) (v : CapValue)
    (h : ¬ k' = k) : lookupKey (setKey m k v) k' = lookupKey m k' := by
  have h' : ¬ k = k' := fun hc => h hc.symm
  unfold setKey
  by_cases hm : m.any (fun kv => kv.1 = k)
  · rw [if_pos hm]
    clear hm
    induction m with
    | nil => simp
    | cons kv rest ih =>
      by_cases hk : kv.1 = k
      · have hkv' : ¬ kv.1 = k' := by
          rw [hk]; exact h'
        simp only [List.map_cons, if_pos hk, lookupKey, if_neg h', if_neg hkv']
        exact ih
      · by_cases hk' : kv.1 = k'
        · simp only [List.map_cons, if_neg hk, lookupKey, if_pos hk']
        · simp only [List.map_cons, if_neg hk, lookupKey, if_neg hk']
          exact ih
  · rw [if_neg hm]
    induction m with
    | nil => simp [lookupKey, h']
    | cons kv rest ih =>
      have hrest : ¬ rest.any (fun kv => kv.1 = k) := by
        intro hr
        exact hm (by simp [List.any_cons, hr])
      by_cases hk' : kv.1 = k'
      · simp [lookupKey, hk']
      · simpa [lookupKey, hk'] using ih hrest

theorem setKey_keys_of_not_mem (m : CapMap) (k : String) (v : CapValue)
    (h : ¬ k ∈ m.map Prod.fst) :
    (setKey m k v).map Prod.fst = m.map Prod.fst ++ [k] := by
  unfold setKey
  have hany : ¬ m.any (fun kv => kv.1 = k) := by
    intro ha
    obtain ⟨kv, hkv, he⟩ := List.any_eq_true.mp ha
    exact h (List.mem_map.mpr ⟨kv, hkv, by simpa using he⟩)
  rw [if_neg hany]
  simp

theorem lookupKey_isSome_iff (m : CapMap) (k : String) :
    (lookupKey m k).isSome = true ↔ k ∈ m.map Prod.fst := by
  induction m with
  | nil => simp [lookupKey]
  | cons kv rest ih =>
    by_cases hk : kv.1 = k
    · simp [lookupKey, hk]
    · simp only [lookupKey, if_neg hk, List.map_cons, List.mem_cons, ih]
      constructor
      · intro h2
        exact Or.inr h2
      · intro h2
        rcases h2 with h2 | h2
        · exact absurd h2.symm hk
        · exact h2

/-! ## Lemmas about the registrar fold -/

theorem buildStep_fold_lookup_notin (href : JStr) (config : Config)
    (sps : List SubProtocol) :
    ∀ (acc : CapMap × List SubProtocol) (k : String),
      (∀ sp ∈ sps, ¬ capabilityCode sp = k) →
      lookupKey (sps.foldl (buildStep href config) acc).1 k = lookupKey acc.1 k := by
  induction sps with
  | nil =>
    intro acc k _
    rfl
  | cons sp rest ih =>
    intro acc k h
    rw [List.foldl_cons,
      ih _ k (fun sp' hm => h sp' (List.mem_cons_of_mem _ hm))]
    unfold buildStep
    by_cases he : subProtocolEnabled config sp = true
    · rw [if_pos he]
      exact lookupKey_setKey_ne _ _ _ _
        (fun hc => h sp (List.mem_cons_self _ _) hc.symm)
    · rw [if_neg he]

theorem buildStep_fold_spec (href : JStr) (config : Config)
    (sps : List SubProtocol) :
    ∀ acc : CapMap × List SubProtocol,
      (∀ sp ∈ sps, ¬ capabilityCode sp ∈ acc.1.map Prod.fst) →
      List.Pairwise (fun s₁ s₂ => ¬ capabilityCode s₁ = capabilityCode s₂) sps →
      (sps.foldl (buildStep href config) acc).1.map Prod.fst
          = acc.1.map Prod.fst
            ++ (sps.filter (fun sp => subProtocolEnabled config sp)).map capabilityCode
        ∧ (sps.foldl (buildStep href config) acc).2
            = acc.2 ++ sps.filter (fun sp => subProtocolEnabled config sp) := by
  induction sps with
  | nil =>
    intro acc _ _
    simp
  | cons sp rest ih =>
    intro acc h hp
    have hph := (List.pairwise_cons.mp hp).1
    have hpt := (List.pairwise_cons.mp hp).2
    rw [List.foldl_cons]
    by_cases he : subProtocolEnabled config sp = true
    · have hstep : buildStep href config acc sp
          = (setKey acc.1 (capabilityCode sp)
              (CapValue.url (joinUrls [href, getBaseRoute config, capabilityPath sp])),
            acc.2 ++ [sp]) := by
        unfold buildStep
        rw [if_pos he]
      have hkeys : (buildStep href config acc sp).1.map Prod.fst
          = acc.1.map Prod.fst ++ [capabilityCode sp] := by
        rw [hstep]
        exact setKey_keys_of_not_mem _ _ _ (h sp (List.mem_cons_self _ _))
      have hcond : ∀ sp' ∈ rest,
          ¬ capabilityCode sp' ∈ (buildStep href config acc sp).1.map Prod.fst := by
        intro sp' hm hmem
        rw [hkeys] at hmem
        rcases List.mem_append.mp hmem with hmem | hmem
        · exact h sp' (List.mem_cons_of_mem _ hm) hmem
        · have heq : capabilityCode sp' = capabilityCode sp := by simpa using hmem
          exact hph sp' hm heq.symm
      obtain ⟨h1, h2⟩ := ih (buildStep href config acc sp) hcond hpt
      have hf : (sp :: rest).filter (fun sp => subProtocolEnabled config sp)
          = sp :: rest.filter (fun sp => subProtocolEnabled config sp) := by
        simp [List.filter_cons, he]
      rw [hf]
      constructor
      · rw [h1, hkeys]
        simp
      · rw [h2, hstep]
        simp
    · have hstep : buildStep href config acc sp = acc := by
        unfold buildStep
        rw [if_neg he]
      have hcond : ∀ sp' ∈ rest,
          ¬ capabilityCode sp' ∈ (buildStep href config acc sp).1.map Prod.fst := by
        intro sp' hm
        rw [hstep]
        exact h sp' (List.mem_cons_of_mem _ hm)
      obtain ⟨h1, h2⟩ := ih _ hcond hpt
      have hf : (sp :: rest).filter (fun sp => subProtocolEnabled config sp)
          = rest.filter (fun sp => subProtocolEnabled config sp) := by
        simp [List.filter_cons, he]
      rw [hf]
      exact ⟨by rw [h1, hstep], by rw [h2, hstep]⟩

theorem buildStep_fold_lookup_mem (href : JStr) (config : Config)
    (sps : List SubProtocol) :
    ∀ (acc : CapMap × List SubProtocol) (sp : SubProtocol),
      sp ∈ sps →
      List.Pairwise (fun s₁ s₂ => ¬ capabilityCode s₁ = capabilityCode s₂) sps →
      subProtocolEnabled config sp = true →
      lookupKey (sps.foldl (buildStep href config) acc).1 (capabilityCode sp)
        = some (CapValue.url (joinUrls [href, getBaseRoute config, capabilityPath sp])) := by
  induction sps with
  | nil =>
    intro acc sp hm
    cases hm
  | cons hd rest ih =>
    intro acc sp hm hp he
    have hph := (List.pairwise_cons.mp hp).1
    have hpt := (List.pairwise_cons.mp hp).2
    rw [List.foldl_cons]
    rcases List.mem_cons.mp hm with heq | hmem
    · subst heq
      rw [buildStep_fold_lookup_notin href config rest _ _
        (fun sp' hm' hc => hph sp' hm' hc.symm)]
      unfold buildStep
      rw [if_pos he]
      exact lookupKey_setKey_self _ _ _
    · exact ih _ sp hmem hpt he

/-! ## Unfolding buildPaymailRouter on a validated base URL -/

theorem buildPaymailRouter_ok_eq (baseUrl : JStr) (config : Config) (u : ParsedUrl)
    (warns : List Warning)
    (hv : validateBaseUrl baseUrl = Except.ok (u, warns)) :
    buildPaymailRouter baseUrl config = Except.ok
      { router :=
          { stages := [Stage.bodyParser]
              ++ (if config.useCors then [Stage.cors] else [])
              ++ [Stage.wellKnown,
                  Stage.apiMount (getBaseRoute config)
                    (subProtocolOrder.foldl (buildStep u.href config)
                      (setKey (config.capabilities.getD [])
                        CapabilityCodes.requestSenderValidation
                        (CapValue.flag config.requestSenderValidation), [])).2,
                  Stage.errorHandler],
            apiHandlers :=
              (subProtocolOrder.foldl (buildStep u.href config)
                (setKey (config.capabilities.getD [])
                  CapabilityCodes.requestSenderValidation
                  (CapValue.flag config.requestSenderValidation), [])).2,
            capabilities :=
              fixedEntries.foldl
                (fun m e => setKey m e.1
                  (CapValue.url (joinUrls [u.href, getBaseRoute config, e.2])))
                (subProtocolOrder.foldl (buildStep u.href config)
                  (setKey (config.capabilities.getD [])
                    CapabilityCodes.requestSenderValidation
                    (CapValue.flag config.requestSenderValidation), [])).1 },
        warnings := warns
          ++ (if subProtocolEnabled config SubProtocol.publicProfile then
                [Warning.publicProfileAlpha] else []),
        configAfter :=
          { config with capabilities := config.capabilities.map (fun _ =>
              fixedEntries.foldl
                (fun m e => setKey m e.1
                  (CapValue.url (joinUrls [u.href, getBaseRoute config, e.2])))
                (subProtocolOrder.foldl (buildStep u.href config)
                  (setKey (config.capabilities.getD [])
                    CapabilityCodes.requestSenderValidation
                    (CapValue.flag config.requestSenderValidation), [])).1) } } := by
  unfold buildPaymailRouter
  rw [hv]

/-! ## Shared facts about the built capability map -/

theorem mem_of_mem_map_filter {α β : Type} (f : α → β) (q : α → Bool) (l : List α)
    (b : β) (h : b ∈ (l.filter q).map f) : b ∈ l.map f := by
  obtain ⟨a, ha, rfl⟩ := List.mem_map.mp h
  exact List.mem_map.mpr ⟨a, (List.mem_filter.mp ha).1, rfl⟩

theorem mem_subProtocolOrder (sp : SubProtocol) : sp ∈ subProtocolOrder := by
  cases sp <;> decide

theorem notin_stepped_keys (config : Config) (k : String) (extra : List String)
    (h1 : ¬ k = CapabilityCodes.requestSenderValidation)
    (h2 : ¬ k ∈ subProtocolOrder.map capabilityCode)
    (h3 : ¬ k ∈ extra) :
    ¬ k ∈ (CapabilityCodes.requestSenderValidation
        :: (subProtocolOrder.filter (fun sp => subProtocolEnabled config sp)).map
            capabilityCode)
      ++ extra := by
  intro hm
  rcases List.mem_append.mp hm with hm | hm
  · rcases List.mem_cons.mp hm with hm | hm
    · exact h1 hm
    · exact h2 (mem_of_mem_map_filter _ _ _ _ hm)
  · exact h3 hm

theorem fixed_fold_setKey (href base : JStr) (m : CapMap) :
    fixedEntries.foldl (fun m e => setKey m e.1 (CapValue.url (joinUrls [href, base, e.2]))) m
      = setKey (setKey (setKey m
          "userDomain"
          (CapValue.url (joinUrls [href, base, str "/oauth/\x7buser\x7d@\x7bdomain.tld\x7d"])))
          "userDomainResponse"
          (CapValue.url (joinUrls [href, base,
            str "/oauth/response/\x7bapp\x7d@\x7bdomain.tld\x7d"])))
          "userInfo"
          (CapValue.url (joinUrls [href, base,
            str "/payauth/userinfo/\x7buser\x7d@\x7bdomain.tld\x7d"])) := rfl

theorem capsFinal_spec (href : JStr) (config : Config)
    (hseed : config.capabilities.getD [] = []) :
    (fixedEntries.foldl
        (fun m e => setKey m e.1 (CapValue.url (joinUrls [href, getBaseRoute config, e.2])))
        (subProtocolOrder.foldl (buildStep href config)
          (setKey (config.capabilities.getD []) CapabilityCodes.requestSenderValidation
            (CapValue.flag config.requestSenderValidation), [])).1).map Prod.fst
      = CapabilityCodes.requestSenderValidation
          :: (subProtocolOrder.filter (fun sp => subProtocolEnabled config sp)).map
              capabilityCode
          ++ ["userDomain", "userDomainResponse", "userInfo"]
    ∧ (subProtocolOrder.foldl (buildStep href config)
          (setKey (config.capabilities.getD []) CapabilityCodes.requestSenderValidation
            (CapValue.flag config.requestSenderValidation), [])).2
        = subProtocolOrder.filter (fun sp => subProtocolEnabled config sp)
    ∧ lookupKey (fixedEntries.foldl
        (fun m e => setKey m e.1 (CapValue.url (joinUrls [href, getBaseRoute config, e.2])))
        (subProtocolOrder.foldl (buildStep href config)
          (setKey (config.capabilities.getD []) CapabilityCodes.requestSenderValidation
            (CapValue.flag config.requestSenderValidation), [])).1)
        CapabilityCodes.requestSenderValidation
      = some (CapValue.flag config.requestSenderValidation) := by
  have hseed' : setKey (config.capabilities.getD []) CapabilityCodes.requestSenderValidation
      (CapValue.flag config.requestSenderValidation)
      = [(CapabilityCodes.requestSenderValidation,
          CapValue.flag config.requestSenderValidation)] := by
    rw [hseed]
    rfl
  rw [hseed']
  obtain ⟨hkeys, hhandlers⟩ := buildStep_fold_spec href config subProtocolOrder
    ([(CapabilityCodes.requestSenderValidation,
        CapValue.flag config.requestSenderValidation)], [])
    (by
      intro sp hm
      simp only [List.map_cons, List.map_nil, List.mem_singleton]
      cases sp <;> decide)
    (by decide)
  have hkeys' : (subProtocolOrder.foldl (buildStep href config)
      ([(CapabilityCodes.requestSenderValidation,
          CapValue.flag config.requestSenderValidation)], [])).1.map Prod.fst
      = CapabilityCodes.requestSenderValidation
        :: (subProtocolOrder.filter (fun sp => subProtocolEnabled config sp)).map
            capabilityCode := by
    rw [hkeys]
    rfl
  rw [fixed_fold_setKey]
  set st1 := (subProtocolOrder.foldl (buildStep href config)
    ([(CapabilityCodes.requestSenderValidation,
        CapValue.flag config.requestSenderValidation)], [])).1 with hst1
  have h1 : ¬ ("userDomain" : String) ∈ st1.map Prod.fst := by
    rw [hst1, hkeys']
    simpa using notin_stepped_keys config "userDomain" []
      (by decide) (by decide) (by decide)
  have k1 : (setKey st1 "userDomain"
      (CapValue.url (joinUrls [href, getBaseRoute config,
        str "/oauth/\x7buser\x7d@\x7bdomain.tld\x7d"]))).map Prod.fst
      = st1.map Prod.fst ++ ["userDomain"] :=
    setKey_keys_of_not_mem _ _ _ h1
  have h2 : ¬ ("userDomainResponse" : String) ∈ (setKey st1 "userDomain"
      (CapValue.url (joinUrls [href, getBaseRoute config,
        str "/oauth/\x7buser\x7d@\x7bdomain.tld\x7d"]))).map Prod.fst := by
    rw [k1, hst1, hkeys']
    simpa using notin_stepped_keys config "userDomainResponse" ["userDomain"]
      (by decide) (by decide) (by decide)
  have k2 : (setKey (setKey st1 "userDomain"
      (CapValue.url (joinUrls [href, getBaseRoute config,
        str "/oauth/\x7buser\x7d@\x7bdomain.tld\x7d"]))) "userDomainResponse"
      (CapValue.url (joinUrls [href, getBaseRoute config,
        str "/oauth/response/\x7bapp\x7d@\x7bdomain.tld\x7d"]))).map Prod.fst
      = (setKey st1 "userDomain"
        (CapValue.url (joinUrls [href, getBaseRoute config,
          str "/oauth/\x7buser\x7d@\x7bdomain.tld\x7d"]))).map Prod.fst
        ++ ["userDomainResponse"] :=
    setKey_keys_of_not_mem _ _ _ h2
  have h3 : ¬ ("userInfo" : String) ∈ (setKey (setKey st1 "userDomain"
      (CapValue.url (joinUrls [href, getBaseRoute config,
        str "/oauth/\x7buser\x7d@\x7bdomain.tld\x7d"]))) "userDomainResponse"
      (CapValue.url (joinUrls [href, getBaseRoute config,
        str "/oauth/response/\x7bapp\x7d@\x7bdomain.tld\x7d"]))).map Prod.fst := by
    rw [k2, k1, hst1, hkeys']
    simpa using notin_stepped_keys config "userInfo" ["userDomain", "userDomainResponse"]
      (by decide) (by decide) (by decide)
  refine ⟨?_, by simpa using hhandlers, ?_⟩
  · rw [setKey_keys_of_not_mem _ _ _ h3, k2, k1, hst1, hkeys']
    simp
  · rw [lookupKey_setKey_ne _ _ _ _ (by decide),
      lookupKey_setKey_ne _ _ _ _ (by decide),
      lookupKey_setKey_ne _ _ _ _ (by decide), hst1,
      buildStep_fold_lookup_notin href config subProtocolOrder _ _
        (by intro sp hm; cases sp <;> decide)]
    simp [lookupKey]

theorem capsFinal_lookup_enabled (href : JStr) (config : Config) (m0 : CapMap)
    (sp : SubProtocol) (he : subProtocolEnabled config sp = true) :
    lookupKey (fixedEntries.foldl
        (fun m e => setKey m e.1 (CapValue.url (joinUrls [href, getBaseRoute config, e.2])))
        (subProtocolOrder.foldl (buildStep href config) (m0, [])).1)
        (capabilityCode sp)
      = some (CapValue.url (joinUrls [href, getBaseRoute config, capabilityPath sp])) := by
  rw [fixed_fold_setKey,
    lookupKey_setKey_ne _ _ _ _ (by cases sp <;> decide),
    lookupKey_setKey_ne _ _ _ _ (by cases sp <;> decide),
    lookupKey_setKey_ne _ _ _ _ (by cases sp <;> decide)]
  exact buildStep_fold_lookup_mem href config subProtocolOrder (m0, []) sp
    (mem_subProtocolOrder sp) (by decide) he

theorem capsFinal_lookup_fixed (href base : JStr) (m : CapMap) :
    lookupKey (fixedEntries.foldl
        (fun m e => setKey m e.1 (CapValue.url (joinUrls [href, base, e.2]))) m) "userDomain"
      = some (CapValue.url (joinUrls [href, base,
          str "/oauth/\x7buser\x7d@\x7bdomain.tld\x7d"]))
    ∧ lookupKey (fixedEntries.foldl
        (fun m e => setKey m e.1 (CapValue.url (joinUrls [href, base, e.2]))) m)
        "userDomainResponse"
      = some (CapValue.url (joinUrls [href, base,
          str "/oauth/response/\x7bapp\x7d@\x7bdomain.tld\x7d"]))
    ∧ lookupKey (fixedEntries.foldl
        (fun m e => setKey m e.1 (CapValue.url (joinUrls [href, base, e.2]))) m) "userInfo"
      = some (CapValue.url (joinUrls [href, base,
          str "/payauth/userinfo/\x7buser\x7d@\x7bdomain.tld\x7d"])) := by
  refine ⟨?_, ?_, ?_⟩
  · rw [fixed_fold_setKey, lookupKey_setKey_ne _ _ _ _ (by decide),
      lookupKey_setKey_ne _ _ _ _ (by decide)]
    exact lookupKey_setKey_self _ _ _
  · rw [fixed_fold_setKey, lookupKey_setKey_ne _ _ _ _ (by decide)]
    exact lookupKey_setKey_self _ _ _
  · rw [fixed_fold_setKey]
    exact lookupKey_setKey_self _ _ _

/-! ## The claims -/

/-- C4: for every input string that does not parse as an absolute URL,
construction of the router fails by raising a `ConfigurationError` carrying the
offending input and the underlying parse failure, and no router (hence no
handler) is ever produced. -/
theorem C4_invalid_base_url (url : JStr) (config : Config)
    (h : parseURL url = none) :
    buildPaymailRouter url config
        = Except.error { message := str "Invalid base url: " ++ url,
                         cause := some (str "Invalid URL") }
      ∧ ∀ res : BuildResult, ¬ buildPaymailRouter url config = Except.ok res := by
  have hv : validateBaseUrl url = Except.error
      { message := str "Invalid base url: " ++ url,
        cause := some (str "Invalid URL") } := by
    unfold validateBaseUrl
    rw [h]
  have hb : buildPaymailRouter url config = Except.error
      { message := str "Invalid base url: " ++ url,
        cause := some (str "Invalid URL") } := by
    unfold buildPaymailRouter
    rw [hv]
  exact ⟨hb, fun res hres => Except.noConfusion (hb.symm.trans hres)⟩

/-- Witness for C4 at the concrete schemeless input `example.com`. -/
theorem C4_witness :
    buildPaymailRouter (str "example.com") ({} : Config)
      = Except.error { message := str "Invalid base url: " ++ str "example.com",
                       cause := some (str "Invalid URL") } :=
  (C4_invalid_base_url (str "example.com") {} (by decide)).1

/-- C9: a base URL that parses, whose scheme is not `https:` and whose hostname
matches the literal insecure-development pattern, makes construction emit the
non-fatal SSL warning, still complete, and return exactly the parsed URL the
validator would return anyway. -/
theorem C9_insecure_warning (url : JStr) (u : ParsedUrl)
    (hu : parseURL url = some u)
    (hproto : ¬ u.protocol = str "https:")
    (hmatch : matchLocahost u.hostname = true) :
    validateBaseUrl url = Except.ok (u, [Warning.insecureSsl])
      ∧ ∀ config : Config,
          (buildPaymailRouter url config).map BuildResult.warnings
            = Except.ok ([Warning.insecureSsl]
                ++ (if subProtocolEnabled config SubProtocol.publicProfile then
                      [Warning.publicProfileAlpha] else [])) := by
  have hv : validateBaseUrl url = Except.ok (u, [Warning.insecureSsl]) := by
    unfold validateBaseUrl
    rw [hu]
    show (if u.protocol ≠ str "https:" ∧ matchLocahost u.hostname = true then
      Except.ok (u, [Warning.insecureSsl]) else Except.ok (u, []))
      = Except.ok (u, [Warning.insecureSsl])
    rw [if_pos ⟨hproto, hmatch⟩]
  refine ⟨hv, fun config => ?_⟩
  rw [buildPaymailRouter_ok_eq url config u [Warning.insecureSsl] hv]
  rfl

/-- Witness for C9 at the concrete input `http://locahost` (the misspelled
development hostname with an insecure scheme). -/
theorem C9_witness :
    validateBaseUrl (str "http://locahost")
        = Except.ok ({ protocol := str "http:", hostname := str "locahost",
                       port := [], pathname := ['/'] }, [Warning.insecureSsl])
      ∧ (buildPaymailRouter (str "http://locahost") ({} : Config)).map
          BuildResult.warnings = Except.ok [Warning.insecureSsl] := by
  have h := C9_insecure_warning (str "http://locahost")
    { protocol := str "http:", hostname := str "locahost", port := [], pathname := ['/'] }
    (by decide) (by decide) (by decide)
  refine ⟨h.1, ?_⟩
  rw [h.2 {}]
  decide

/-- C10: the insecure-scheme warning fires exactly when the parsed hostname
matches the misspelled literal regular expression `/^locahost:?\d*$/`; in
particular a non-https URL whose hostname is the conventional loopback name
`localhost` produces no warning at all. -/
theorem C10_locahost_regex_only (url : JStr) (u : ParsedUrl) (w : List Warning)
    (hv : validateBaseUrl url = Except.ok (u, w)) :
    (Warning.insecureSsl ∈ w
        ↔ (¬ u.protocol = str "https:" ∧ matchLocahost u.hostname = true))
      ∧ (u.hostname = str "localhost" → w = []) := by
  unfold validateBaseUrl at hv
  cases hp : parseURL url with
  | none =>
    rw [hp] at hv
    exact Except.noConfusion hv
  | some u' =>
    rw [hp] at hv
    change (if u'.protocol ≠ str "https:" ∧ matchLocahost u'.hostname = true then
      Except.ok (u', [Warning.insecureSsl]) else Except.ok (u', []))
      = Except.ok (u, w) at hv
    by_cases hc : (u'.protocol ≠ str "https:") ∧ matchLocahost u'.hostname = true
    · rw [if_pos hc] at hv
      injection hv with hv2
      injection hv2 with hvu hvw
      subst hvu
      subst hvw
      constructor
      · exact iff_of_true (List.mem_singleton_self _) hc
      · intro hh
        exfalso
        rw [hh] at hc
        exact absurd hc.2 (by decide)
    · rw [if_neg hc] at hv
      injection hv with hv2
      injection hv2 with hvu hvw
      subst hvu
      subst hvw
      exact ⟨iff_of_false (by simp) hc, fun _ => rfl⟩

/-- Witness for C10 at the concrete input `http://localhost`: no warning is
emitted, and indeed the hostname fails the (misspelled) pattern. -/
theorem C10_witness :
    Warning.insecureSsl ∈ ([] : List Warning)
      ↔ (¬ str "http:" = str "https:" ∧ matchLocahost (str "localhost") = true) :=
  (C10_locahost_regex_only (str "http://localhost")
    { protocol := str "http:", hostname := str "localhost",
      port := [], pathname := ['/'] }
    [] (by decide)).1

/-- C5: on every built pipeline, the well-known discovery handler answers every
request with the fixed `application/json` content type and a body holding the
literal `bsvalias: "1.0"` version field and the frozen capability map; the
response is the same for every request, and handling never mutates the
router (in particular not the capability map). -/
theorem C5_discovery_document (baseUrl : JStr) (config : Config) (res : BuildResult)
    (req : Request)
    (hb : buildPaymailRouter baseUrl config = Except.ok res) :
    handleWellKnown res.router req
        = ({ contentType := "application/json",
             body := { bsvalias := "1.0", capabilities := res.router.capabilities } },
           res.router)
      ∧ Stage.wellKnown ∈ res.router.stages
      ∧ ∀ req' : Request,
          (handleWellKnown res.router req').1 = (handleWellKnown res.router req).1 := by
  refine ⟨rfl, ?_, fun req' => rfl⟩
  cases hv : validateBaseUrl baseUrl with
  | error e =>
    rw [show buildPaymailRouter baseUrl config = Except.error e by
      unfold buildPaymailRouter; rw [hv]] at hb
    exact Except.noConfusion hb
  | ok p =>
    obtain ⟨u, warns⟩ := p
    rw [buildPaymailRouter_ok_eq baseUrl config u warns hv] at hb
    injection hb with hb
    subst hb
    simp

/-- Witness for C5 at the concrete base URL `https://example.com` and the
all-default configuration. -/
theorem C5_witness :
    (buildPaymailRouter (str "https://example.com") ({} : Config)).map
        (fun res => (handleWellKnown res.router { body := str "ignored" }).1.contentType)
      = Except.ok "application/json"
    ∧ (buildPaymailRouter (str "https://example.com") ({} : Config)).map
        (fun res => (handleWellKnown res.router { body := str "ignored" }).1.body.bsvalias)
      = Except.ok "1.0" := by
  cases hE : buildPaymailRouter (str "https://example.com") ({} : Config) with
  | error e =>
    have hne : (buildPaymailRouter (str "https://example.com")
        ({} : Config)).toOption.isSome = true := by decide
    rw [hE] at hne
    simp [Except.toOption] at hne
  | ok res =>
    have h := C5_discovery_document (str "https://example.com") {} res
      { body := str "ignored" } hE
    simp only [Except.map]
    rw [h.1]
    exact ⟨rfl, rfl⟩

/-- C6: with `basePath` unset, base URL `https://example.com`, and only
identity lookup enabled, the served capability map is exactly the sender
validation boolean `false`, the `pki` template, and the three fixed entries —
nothing else. -/
theorem C6_identity_only_example :
    (buildPaymailRouter (str "https://example.com")
        { getIdentityKey := some () }).map (fun res => res.router.capabilities)
      = Except.ok
          [(CapabilityCodes.requestSenderValidation, CapValue.flag false),
           ("pki", CapValue.url (str "https://example.com/id/\x7balias\x7d@\x7bdomain.tld\x7d")),
           ("userDomain",
            CapValue.url (str "https://example.com/oauth/\x7buser\x7d@\x7bdomain.tld\x7d")),
           ("userDomainResponse",
            CapValue.url (str "https://example.com/oauth/response/\x7bapp\x7d@\x7bdomain.tld\x7d")),
           ("userInfo",
            CapValue.url (str "https://example.com/payauth/userinfo/\x7buser\x7d@\x7bdomain.tld\x7d"))] := by
  decide

/-- C7: the error-handling stage is always the last stage of the built
pipeline, strictly after the body parser, the optional CORS stage, the
discovery endpoint, and the mounted API router. -/
theorem C7_error_handler_last (baseUrl : JStr) (config : Config) (res : BuildResult)
    (hb : buildPaymailRouter baseUrl config = Except.ok res) :
    ∃ pre : List Stage,
      res.router.stages = pre ++ [Stage.errorHandler]
        ∧ Stage.bodyParser ∈ pre
        ∧ Stage.wellKnown ∈ pre
        ∧ Stage.apiMount (getBaseRoute config) res.router.apiHandlers ∈ pre
        ∧ (config.useCors = true → Stage.cors ∈ pre)
        ∧ ¬ Stage.errorHandler ∈ pre := by
  cases hv : validateBaseUrl baseUrl with
  | error e =>
    rw [show buildPaymailRouter baseUrl config = Except.error e by
      unfold buildPaymailRouter; rw [hv]] at hb
    exact Except.noConfusion hb
  | ok p =>
    obtain ⟨u, warns⟩ := p
    rw [buildPaymailRouter_ok_eq baseUrl config u warns hv] at hb
    injection hb with hb
    subst hb
    refine ⟨[Stage.bodyParser] ++ (if config.useCors then [Stage.cors] else [])
      ++ [Stage.wellKnown,
          Stage.apiMount (getBaseRoute config)
            (subProtocolOrder.foldl (buildStep u.href config)
              (setKey (config.capabilities.getD [])
                CapabilityCodes.requestSenderValidation
                (CapValue.flag config.requestSenderValidation), [])).2],
      ?_, ?_, ?_, ?_, ?_, ?_⟩
    · simp
    · simp
    · simp
    · simp
    · intro hc
      simp [hc]
    · cases hcors : config.useCors <;> simp [hcors]

/-- Witness for C7 at a concrete base URL and the all-default configuration:
the last pipeline stage is the error handler. -/
theorem C7_witness :
    (buildPaymailRouter (str "https://example.com") ({} : Config)).map
        (fun res => res.router.stages.getLast?)
      = Except.ok (some Stage.errorHandler) := by
  cases hE : buildPaymailRouter (str "https://example.com") ({} : Config) with
  | error e =>
    have hne : (buildPaymailRouter (str "https://example.com")
        ({} : Config)).toOption.isSome = true := by decide
    rw [hE] at hne
    simp [Except.toOption] at hne
  | ok res =>
    obtain ⟨pre, hpre, -, -, -, -, -⟩ :=
      C7_error_handler_last (str "https://example.com") {} res hE
    simp only [Except.map]
    rw [hpre]
    simp

/-- C8 (amended): when the caller does not supply a `capabilities` object,
construction only reads the configuration and returns it unchanged.  (When a
`capabilities` object is supplied, the source aliases and mutates it — see the
counterexample.) -/
theorem C8_config_read_only (baseUrl : JStr) (config : Config) (res : BuildResult)
    (hcap : config.capabilities = none)
    (hb : buildPaymailRouter baseUrl config = Except.ok res) :
    res.configAfter = config := by
  cases hv : validateBaseUrl baseUrl with
  | error e =>
    rw [show buildPaymailRouter baseUrl config = Except.error e by
      unfold buildPaymailRouter; rw [hv]] at hb
    exact Except.noConfusion hb
  | ok p =>
    obtain ⟨u, warns⟩ := p
    rw [buildPaymailRouter_ok_eq baseUrl config u warns hv] at hb
    injection hb with hb
    subst hb
    show { config with capabilities := config.capabilities.map _ } = config
    rw [hcap]
    rw [show (none : Option CapMap).map _ = none from rfl, ← hcap]

/-- Counterexample for C8 as stated: supplying a (even empty) `capabilities`
object makes construction write every capability entry into the caller's
configuration — the configuration after construction differs from the one
passed in. -/
theorem C8_counterexample :
    (buildPaymailRouter (str "https://example.com")
        ({ capabilities := some [] } : Config)).map BuildResult.configAfter
      ≠ Except.ok ({ capabilities := some [] } : Config) := by
  decide

/-- Witness for C8 (amended) at a concrete input with no capabilities object. -/
theorem C8_witness :
    (buildPaymailRouter (str "https://example.com") ({} : Config)).map
        BuildResult.configAfter = Except.ok ({} : Config) := by
  cases hE : buildPaymailRouter (str "https://example.com") ({} : Config) with
  | error e =>
    have hne : (buildPaymailRouter (str "https://example.com")
        ({} : Config)).toOption.isSome = true := by decide
    rw [hE] at hne
    simp [Except.toOption] at hne
  | ok res =>
    simp only [Except.map]
    rw [C8_config_read_only (str "https://example.com") {} res rfl hE]

/-- C1 (amended): provided the configuration does not pre-seed the capability
object, the served capability map holds exactly one entry per enabled
sub-protocol, the boolean sender-validation entry, and the three fixed
entries — nothing else. -/
theorem C1_capability_map_exact (baseUrl : JStr) (config : Config) (res : BuildResult)
    (hseed : config.capabilities.getD [] = [])
    (hb : buildPaymailRouter baseUrl config = Except.ok res) :
    res.router.capabilities.map Prod.fst
        = CapabilityCodes.requestSenderValidation
            :: (subProtocolOrder.filter (fun sp => subProtocolEnabled config sp)).map
                capabilityCode
            ++ ["userDomain", "userDomainResponse", "userInfo"]
      ∧ lookupKey res.router.capabilities CapabilityCodes.requestSenderValidation
          = some (CapValue.flag config.requestSenderValidation) := by
  cases hv : validateBaseUrl baseUrl with
  | error e =>
    rw [show buildPaymailRouter baseUrl config = Except.error e by
      unfold buildPaymailRouter; rw [hv]] at hb
    exact Except.noConfusion hb
  | ok p =>
    obtain ⟨u, warns⟩ := p
    rw [buildPaymailRouter_ok_eq baseUrl config u warns hv] at hb
    injection hb with hb
    subst hb
    obtain ⟨hk, -, hl⟩ := capsFinal_spec u.href config hseed
    exact ⟨hk, hl⟩

/-- Witness for C1 (amended) with only identity lookup enabled. -/
theorem C1_witness :
    (buildPaymailRouter (str "https://example.com")
        ({ getIdentityKey := some () } : Config)).map
        (fun res => res.router.capabilities.map Prod.fst)
      = Except.ok [CapabilityCodes.requestSenderValidation, "pki",
          "userDomain", "userDomainResponse", "userInfo"] := by
  cases hE : buildPaymailRouter (str "https://example.com")
      ({ getIdentityKey := some () } : Config) with
  | error e =>
    have hne : (buildPaymailRouter (str "https://example.com")
        ({ getIdentityKey := some () } : Config)).toOption.isSome = true := by decide
    rw [hE] at hne
    simp [Except.toOption] at hne
  | ok res =>
    have h := C1_capability_map_exact (str "https://example.com")
      { getIdentityKey := some () } res rfl hE
    simp only [Except.map]
    rw [h.1]
    decide

/-- Counterexample for C1 as stated: a pre-seeded capabilities object leaves an
extra entry (`x-extra`) in the served map that is neither a sub-protocol code,
nor the sender-validation entry, nor one of the three fixed entries. -/
theorem C1_counterexample :
    (buildPaymailRouter (str "https://example.com")
        ({ capabilities := some [("x-extra", CapValue.flag true)] } : Config)).map
        (fun res => res.router.capabilities.map Prod.fst)
      = Except.ok ["x-extra", CapabilityCodes.requestSenderValidation,
          "userDomain", "userDomainResponse", "userInfo"]
    ∧ ¬ ("x-extra" : String) ∈ CapabilityCodes.requestSenderValidation
          :: subProtocolOrder.map capabilityCode
          ++ ["userDomain", "userDomainResponse", "userInfo"] := by
  exact ⟨by decide, by decide⟩

theorem capabilityCode_inj (s1 s2 : SubProtocol)
    (h : capabilityCode s1 = capabilityCode s2) : s1 = s2 := by
  cases s1 <;> cases s2 <;> first | rfl | exact absurd h (by decide)

theorem capabilityCode_ne_reserved (sp : SubProtocol) :
    ¬ capabilityCode sp = CapabilityCodes.requestSenderValidation
      ∧ ¬ capabilityCode sp = "userDomain"
      ∧ ¬ capabilityCode sp = "userDomainResponse"
      ∧ ¬ capabilityCode sp = "userInfo" := by
  cases sp <;> exact ⟨by decide, by decide, by decide, by decide⟩

/-- C3 (amended): provided the configuration does not pre-seed the capability
object, a sub-protocol's handler is mounted exactly when its required callback
is present, and its capability entry is present exactly when its handler is
mounted — never one without the other. -/
theorem C3_handler_iff_capability (baseUrl : JStr) (config : Config) (res : BuildResult)
    (sp : SubProtocol)
    (hseed : config.capabilities.getD [] = [])
    (hb : buildPaymailRouter baseUrl config = Except.ok res) :
    (sp ∈ res.router.apiHandlers ↔ subProtocolEnabled config sp = true)
      ∧ ((lookupKey res.router.capabilities (capabilityCode sp)).isSome = true
          ↔ sp ∈ res.router.apiHandlers) := by
  cases hv : validateBaseUrl baseUrl with
  | error e =>
    rw [show buildPaymailRouter baseUrl config = Except.error e by
      unfold buildPaymailRouter; rw [hv]] at hb
    exact Except.noConfusion hb
  | ok p =>
    obtain ⟨u, warns⟩ := p
    rw [buildPaymailRouter_ok_eq baseUrl config u warns hv] at hb
    injection hb with hb
    subst hb
    obtain ⟨hk, hh, -⟩ := capsFinal_spec u.href config hseed
    constructor
    · show sp ∈ (subProtocolOrder.foldl (buildStep u.href config)
        (setKey (config.capabilities.getD []) CapabilityCodes.requestSenderValidation
          (CapValue.flag config.requestSenderValidation), [])).2 ↔ _
      rw [hh]
      constructor
      · intro h2
        exact (List.mem_filter.mp h2).2
      · intro h2
        exact List.mem_filter.mpr ⟨mem_subProtocolOrder sp, h2⟩
    · show (lookupKey (fixedEntries.foldl
          (fun m e => setKey m e.1 (CapValue.url (joinUrls [u.href, getBaseRoute config, e.2])))
          (subProtocolOrder.foldl (buildStep u.href config)
            (setKey (config.capabilities.getD []) CapabilityCodes.requestSenderValidation
              (CapValue.flag config.requestSenderValidation), [])).1)
          (capabilityCode sp)).isSome = true
        ↔ sp ∈ (subProtocolOrder.foldl (buildStep u.href config)
          (setKey (config.capabilities.getD []) CapabilityCodes.requestSenderValidation
            (CapValue.flag config.requestSenderValidation), [])).2
      rw [lookupKey_isSome_iff, hk, hh]
      have hne := capabilityCode_ne_reserved sp
      constructor
      · intro h2
        rcases List.mem_cons.mp h2 with h3 | h3
        · exact absurd h3 hne.1
        · rcases List.mem_append.mp h3 with h3 | h3
          · obtain ⟨sp', hsp', he'⟩ := List.mem_map.mp h3
            rw [← capabilityCode_inj sp' sp he']
            exact hsp'
          · simp [hne.2.1, hne.2.2.1, hne.2.2.2] at h3
      · intro h2
        exact List.mem_cons.mpr (Or.inr (List.mem_append.mpr
          (Or.inl (List.mem_map.mpr ⟨sp, h2, rfl⟩))))

/-- Witness for C3 (amended): with identity lookup enabled, the `pki` entry is
present and the identity handler is mounted. -/
theorem C3_witness :
    (buildPaymailRouter (str "https://example.com")
        ({ getIdentityKey := some () } : Config)).map
        (fun res => (lookupKey res.router.capabilities
          (capabilityCode SubProtocol.identity)).isSome)
      = Except.ok true
    ∧ (buildPaymailRouter (str "https://example.com")
        ({ getIdentityKey := some () } : Config)).map
        (fun res => res.router.apiHandlers)
      = Except.ok [SubProtocol.identity] := by
  cases hE : buildPaymailRouter (str "https://example.com")
      ({ getIdentityKey := some () } : Config) with
  | error e =>
    have hne : (buildPaymailRouter (str "https://example.com")
        ({ getIdentityKey := some () } : Config)).toOption.isSome = true := by decide
    rw [hE] at hne
    simp [Except.toOption] at hne
  | ok res =>
    have h := C3_handler_iff_capability (str "https://example.com")
      { getIdentityKey := some () } res SubProtocol.identity rfl hE
    constructor
    · simp only [Except.map]
      rw [h.2.mpr (h.1.mpr rfl)]
    · have hh : (buildPaymailRouter (str "https://example.com")
          ({ getIdentityKey := some () } : Config)).map
          (fun res => res.router.apiHandlers) = Except.ok [SubProtocol.identity] := by
        decide
      rw [hE] at hh
      exact hh

/-- Counterexample for C3 as stated: seeding the capabilities object with a
`pki` entry while identity lookup is disabled leaves the `pki` capability
advertised with no identity handler mounted — a capability without a handler. -/
theorem C3_counterexample :
    (buildPaymailRouter (str "https://example.com")
        ({ capabilities := some [("pki", CapValue.url (str "seeded"))] } : Config)).map
        (fun res => ((lookupKey res.router.capabilities "pki").isSome,
                     res.router.apiHandlers.length))
      = Except.ok (true, 0) := by
  decide

/-- C2 (amended): every capability URL template written by the builder is the
join of the validated base origin, the configured base path and the fixed
per-capability relative path; it begins with the joined origin-and-base-path;
the join keeps the whole relative path — with its literal placeholder braces,
never percent-encoded — as its tail; each sub-protocol template carries the
literal tokens `\x7balias\x7d@\x7bdomain.tld\x7d` (plus `\x7bpubkey\x7d` for
public-key verification), while the three fixed entries carry
`\x7bdomain.tld\x7d` with a `\x7buser\x7d`/`\x7bapp\x7d` placeholder instead of
`\x7balias\x7d`. -/
theorem C2_capability_templates (baseUrl : JStr) (config : Config) (res : BuildResult)
    (u : ParsedUrl) (sp : SubProtocol)
    (hu : parseURL baseUrl = some u)
    (hb : buildPaymailRouter baseUrl config = Except.ok res)
    (he : subProtocolEnabled config sp = true) :
    lookupKey res.router.capabilities (capabilityCode sp)
        = some (CapValue.url (joinUrls [u.href, getBaseRoute config, capabilityPath sp]))
      ∧ urljoin [u.href, getBaseRoute config]
          <+: joinUrls [u.href, getBaseRoute config, capabilityPath sp]
      ∧ collapseTrailingSlashes (dropLeadingSlashes (capabilityPath sp))
          <:+ joinUrls [u.href, getBaseRoute config, capabilityPath sp]
      ∧ str "\x7balias\x7d@\x7bdomain.tld\x7d"
          <:+: joinUrls [u.href, getBaseRoute config, capabilityPath sp]
      ∧ (sp = SubProtocol.verifyPubkey →
          str "\x7bpubkey\x7d"
            <:+: joinUrls [u.href, getBaseRoute config, capabilityPath sp])
      ∧ (∀ e ∈ fixedEntries,
          lookupKey res.router.capabilities e.1
              = some (CapValue.url (joinUrls [u.href, getBaseRoute config, e.2]))
            ∧ urljoin [u.href, getBaseRoute config]
                <+: joinUrls [u.href, getBaseRoute config, e.2]
            ∧ collapseTrailingSlashes (dropLeadingSlashes e.2)
                <:+ joinUrls [u.href, getBaseRoute config, e.2]
            ∧ str "\x7bdomain.tld\x7d" <:+: joinUrls [u.href, getBaseRoute config, e.2]) := by
  cases hv : validateBaseUrl baseUrl with
  | error e =>
    rw [show buildPaymailRouter baseUrl config = Except.error e by
      unfold buildPaymailRouter; rw [hv]] at hb
    exact Except.noConfusion hb
  | ok p =>
    obtain ⟨u', warns⟩ := p
    have hv2 := hv
    unfold validateBaseUrl at hv2
    rw [hu] at hv2
    change (if u.protocol ≠ str "https:" ∧ matchLocahost u.hostname = true then
      Except.ok (u, [Warning.insecureSsl]) else Except.ok (u, []))
      = Except.ok (u', warns) at hv2
    have huu : u' = u := by
      by_cases hc : (u.protocol ≠ str "https:") ∧ matchLocahost u.hostname = true
      · rw [if_pos hc] at hv2
        injection hv2 with h2
        injection h2 with h3 h4
        exact h3.symm
      · rw [if_neg hc] at hv2
        injection hv2 with h2
        injection h2 with h3 h4
        exact h3.symm
    subst huu
    rw [buildPaymailRouter_ok_eq baseUrl config u' warns hv] at hb
    injection hb with hb
    subst hb
    refine ⟨?_, ?_, ?_, ?_, ?_, ?_⟩
    · exact capsFinal_lookup_enabled u'.href config _ sp he
    · exact urljoin_prefix _ _ _ (by cases sp <;> decide)
    · exact urljoin_last_suffix _ _ _ (by cases sp <;> decide)
    · have hsuf := urljoin_last_suffix u'.href (getBaseRoute config) (capabilityPath sp)
        (by cases sp <;> decide)
      have hinf : str "\x7balias\x7d@\x7bdomain.tld\x7d"
          <:+: collapseTrailingSlashes (dropLeadingSlashes (capabilityPath sp)) := by
        cases sp <;> decide
      exact hinf.trans hsuf.isInfix
    · intro hsp
      subst hsp
      have hsuf := urljoin_last_suffix u'.href (getBaseRoute config)
        (capabilityPath SubProtocol.verifyPubkey) (by decide)
      have hinf : str "\x7bpubkey\x7d"
          <:+: collapseTrailingSlashes
            (dropLeadingSlashes (capabilityPath SubProtocol.verifyPubkey)) := by
        decide
      exact hinf.trans hsuf.isInfix
    · intro e hee
      simp only [fixedEntries, List.mem_cons, List.not_mem_nil, or_false] at hee
      have hfix := capsFinal_lookup_fixed u'.href (getBaseRoute config)
        (subProtocolOrder.foldl (buildStep u'.href config)
          (setKey (config.capabilities.getD []) CapabilityCodes.requestSenderValidation
            (CapValue.flag config.requestSenderValidation), [])).1
      rcases hee with rfl | rfl | rfl
      · refine ⟨hfix.1, urljoin_prefix _ _ _ (by decide),
          urljoin_last_suffix _ _ _ (by decide), ?_⟩
        have hinf : str "\x7bdomain.tld\x7d" <:+: collapseTrailingSlashes
            (dropLeadingSlashes (str "/oauth/\x7buser\x7d@\x7bdomain.tld\x7d")) := by
          decide
        exact hinf.trans (urljoin_last_suffix _ _ _ (by decide)).isInfix
      · refine ⟨hfix.2.1, urljoin_prefix _ _ _ (by decide),
          urljoin_last_suffix _ _ _ (by decide), ?_⟩
        have hinf : str "\x7bdomain.tld\x7d" <:+: collapseTrailingSlashes
            (dropLeadingSlashes (str "/oauth/response/\x7bapp\x7d@\x7bdomain.tld\x7d")) := by
          decide
        exact hinf.trans (urljoin_last_suffix _ _ _ (by decide)).isInfix
      · refine ⟨hfix.2.2, urljoin_prefix _ _ _ (by decide),
          urljoin_last_suffix _ _ _ (by decide), ?_⟩
        have hinf : str "\x7bdomain.tld\x7d" <:+: collapseTrailingSlashes
            (dropLeadingSlashes (str "/payauth/userinfo/\x7buser\x7d@\x7bdomain.tld\x7d")) := by
          decide
        exact hinf.trans (urljoin_last_suffix _ _ _ (by decide)).isInfix

/-- Counterexample for C2 as stated: the `userDomain` capability URL template
placed in the map contains no literal `\x7balias\x7d` token (it uses
`\x7buser\x7d` instead). -/
theorem C2_counterexample :
    (buildPaymailRouter (str "https://example.com") ({} : Config)).map
        (fun res => lookupKey res.router.capabilities "userDomain")
      = Except.ok (some (CapValue.url
          (str "https://example.com/oauth/\x7buser\x7d@\x7bdomain.tld\x7d")))
    ∧ ¬ str "\x7balias\x7d"
        <:+: str "https://example.com/oauth/\x7buser\x7d@\x7bdomain.tld\x7d" := by
  exact ⟨by decide, by decide⟩

/-- Witness for C2 (amended) at the identity-lookup capability of a concrete
configuration. -/
theorem C2_witness :
    (buildPaymailRouter (str "https://example.com")
        ({ getIdentityKey := some () } : Config)).map
        (fun res => lookupKey res.router.capabilities
          (capabilityCode SubProtocol.identity))
      = Except.ok (some (CapValue.url (joinUrls
          [ParsedUrl.href { protocol := str "https:", hostname := str "example.com",
                            port := [], pathname := ['/'] },
           getBaseRoute { getIdentityKey := some () },
           capabilityPath SubProtocol.identity])))
    ∧ str "\x7balias\x7d@\x7bdomain.tld\x7d" <:+: joinUrls
          [ParsedUrl.href { protocol := str "https:", hostname := str "example.com",
                            port := [], pathname := ['/'] },
           getBaseRoute { getIdentityKey := some () },
           capabilityPath SubProtocol.identity] := by
  cases hE : buildPaymailRouter (str "https://example.com")
      ({ getIdentityKey := some () } : Config) with
  | error e =>
    have hne : (buildPaymailRouter (str "https://example.com")
        ({ getIdentityKey := some () } : Config)).toOption.isSome = true := by decide
    rw [hE] at hne
    simp [Except.toOption] at hne
  | ok res =>
    have h := C2_capability_templates (str "https://example.com")
      { getIdentityKey := some () } res
      { protocol := str "https:", hostname := str "example.com",
        port := [], pathname := ['/'] }
      SubProtocol.identity (by decide) hE rfl
    constructor
    · simp only [Except.map]
      rw [h.1]
    · exact h.2.2.2.1
